import Mathlib

/-!
Shallow embedding of the ShortCreatorWithMultiFallback pipeline core.

Sources embedded (translated line by line from the Python sources):
  models.py            — ProcessingStatus, UploadStatus, VideoJob,
                         TranscriptSegment, VideoShort records
  gemini_analyzer.py   — analyze_segment (oracle path with clamping and
                         truncation) and fallback_analysis (deterministic
                         keyword heuristic)
  video_processor.py   — process_video stage sequencer, update_job_status,
                         analyze_content (scoring, primary selection, relaxed
                         fallback, exception-path fallback), generate_shorts
  youtube_uploader.py  — upload_short state update, tag truncation of
                         prepare_upload_metadata

Scores are modelled over the rationals; machine floats at these magnitudes
agree with the exact arithmetic for every comparison the code performs.
External collaborators (the Gemini oracle, yt-dlp, ffmpeg, the YouTube
transport, the database session) are modelled as explicit parameters: a
function giving the oracle response per text, an Except-valued outcome per
stage or per clip, with in-memory records standing for committed rows.
-/

/-- Words of a string under Python str.split with no separator: maximal runs
of non-whitespace characters, empty runs dropped. The accumulator holds the
current word reversed. -/
def wordsAux : List Char → List Char → List String
  | [], acc => if acc = [] then [] else [String.mk acc.reverse]
  | c :: cs, acc =>
    if c.isWhitespace then
      if acc = [] then wordsAux cs [] else String.mk acc.reverse :: wordsAux cs []
    else wordsAux cs (c :: acc)

/-- Python text.split() on a string. -/
def pyWords (s : String) : List String := wordsAux s.data []

/-- Python len(text.split()). -/
def wordCount (s : String) : ℕ := (pyWords s).length

/-- Python substring test: needle in hay, over character lists. -/
def containsSub : List Char → List Char → Bool
  | [], needle => needle.isEmpty
  | c :: t, needle => needle.isPrefixOf (c :: t) || containsSub t needle

/-- Python text.lower() as a character list (the keyword lists are ASCII). -/
def pyLower (s : String) : List Char := s.data.map Char.toLower

/-- gemini_analyzer.py line 101: the engagement keyword list. -/
def engagement_keywords : List String :=
  ["amazing", "incredible", "wow", "shocking", "unbelievable", "funny", "hilarious"]

/-- gemini_analyzer.py line 102: the emotion keyword list. -/
def emotion_keywords : List String :=
  ["love", "hate", "excited", "surprised", "happy", "angry", "scared"]

/-- gemini_analyzer.py line 103: the virality keyword list. -/
def viral_keywords : List String :=
  ["viral", "trending", "share", "like", "subscribe", "follow"]

/-- Python sum(1 for word in kws if word in text_lower). -/
def countMatches (kws : List String) (textLower : List Char) : ℕ :=
  (kws.filter (fun w => containsSub textLower w.data)).length

/-- The dict returned by GeminiAnalyzer.analyze_segment: both the oracle path
and the fallback path populate every key. -/
structure AnalysisResult where
  engagement_score : ℚ
  emotion_score : ℚ
  viral_potential : ℚ
  quotability : ℚ
  emotions : List String
  keywords : List String
  reason : String
deriving DecidableEq

/-- The parsed JSON dict of a non-empty oracle response, before defaults and
clamping: json.loads of response.text validated against the SegmentAnalysis
schema; a field absent from the dict is none. -/
structure RawAnalysis where
  engagement_score : Option ℚ := none
  emotion_score : Option ℚ := none
  viral_potential : Option ℚ := none
  quotability : Option ℚ := none
  emotions : Option (List String) := none
  keywords : Option (List String) := none
  reason : Option String := none
deriving DecidableEq

/-- Python max(0.0, min(1.0, x)). -/
def clamp01 (x : ℚ) : ℚ := max 0 (min 1 x)

/-- Python s[:n] on a string. -/
def takeChars (n : ℕ) (s : String) : String := String.mk (s.data.take n)

/-- gemini_analyzer.py lines 96-122, GeminiAnalyzer.fallback_analysis: the
deterministic keyword heuristic used when the oracle is unavailable. -/
def fallback_analysis (text : String) : AnalysisResult :=
  let text_lower := pyLower text
  let engagement_score := min 1 ((countMatches engagement_keywords text_lower : ℚ) * (2/10))
  let emotion_score := min 1 ((countMatches emotion_keywords text_lower : ℚ) * (2/10))
  let viral_score := min 1 ((countMatches viral_keywords text_lower : ℚ) * (3/10))
  { engagement_score := max (4/10) engagement_score
    emotion_score := max (3/10) emotion_score
    viral_potential := max (3/10) viral_score
    quotability := min 1 ((wordCount text : ℚ) / 20)
    emotions := ["general"]
    keywords := (pyWords text).take 5
    reason := "Content analyzed with fallback method" }

/-- gemini_analyzer.py lines 40-94, GeminiAnalyzer.analyze_segment. The
oracle call is modelled by its delivered value: some parsed dict when
response.text is non-empty JSON conforming to the declared response schema,
none when the call raises, the response is empty, or its text does not
parse — every one of those paths reaches the except clause and returns
fallback_analysis(text). -/
def analyze_segment (response : Option RawAnalysis) (text : String) : AnalysisResult :=
  match response with
  | some result =>
    { engagement_score := clamp01 (result.engagement_score.getD (5/10))
      emotion_score := clamp01 (result.emotion_score.getD (5/10))
      viral_potential := clamp01 (result.viral_potential.getD (5/10))
      quotability := clamp01 (result.quotability.getD (5/10))
      emotions := (result.emotions.getD []).take 5
      keywords := (result.keywords.getD []).take 10
      reason := takeChars 500 (result.reason.getD "Content has potential for engagement") }
  | none => fallback_analysis text

/-- models.py line 55: one transcript_segments row. -/
structure TranscriptSegment where
  start_time : ℚ
  end_time : ℚ
  text : String
  engagement_score : ℚ := 0
  emotion_score : ℚ := 0
  viral_potential : ℚ := 0
  quotability : ℚ := 0
  overall_score : ℚ := 0
  emotions_detected : List String := []
  keywords : List String := []
  analysis_notes : String := ""
deriving DecidableEq

/-- video_processor.py line 232: duration = segment.end_time - segment.start_time. -/
def segmentDuration (s : TranscriptSegment) : ℚ := s.end_time - s.start_time

/-- video_processor.py lines 214-229: score one segment with the analyzer
result and store the derived overall_score. The analyzer dict always holds
every key, so the .get defaults of lines 217-220 never apply. -/
def scoreSegment (analyze : String → AnalysisResult) (s : TranscriptSegment) :
    TranscriptSegment :=
  let a := analyze s.text
  { s with
    engagement_score := a.engagement_score
    emotion_score := a.emotion_score
    viral_potential := a.viral_potential
    quotability := a.quotability
    overall_score :=
      a.engagement_score * (3/10) + a.emotion_score * (2/10) +
        a.viral_potential * (3/10) + a.quotability * (2/10)
    emotions_detected := a.emotions
    keywords := a.keywords
    analysis_notes := a.reason }

/-- video_processor.py lines 233-235: the primary candidate filter. -/
def isEngaging (s : TranscriptSegment) : Bool :=
  decide (s.overall_score > 4/10) && decide (10 ≤ segmentDuration s) &&
    decide (segmentDuration s ≤ 60) && decide (5 ≤ wordCount s.text)

/-- video_processor.py line 248: the relaxed rescan predicate. -/
def relaxedOk (s : TranscriptSegment) : Bool :=
  decide (10 ≤ segmentDuration s) && decide (segmentDuration s ≤ 60) &&
    decide (3 ≤ wordCount s.text)

/-- One step of the stable descending insertion sort modelling Python
list.sort(key=overall_score, reverse=True): the new element goes in front of
the first element whose score it ties or beats, so earlier elements keep
their place on ties exactly as the stable library sort does. -/
def insertDesc (a : TranscriptSegment) :
    List TranscriptSegment → List TranscriptSegment
  | [] => [a]
  | b :: l => if b.overall_score ≤ a.overall_score then a :: b :: l else b :: insertDesc a l

/-- Python engaging_segments.sort(key=lambda x: x.overall_score, reverse=True)
as a stable descending sort. -/
def sortDesc : List TranscriptSegment → List TranscriptSegment
  | [] => []
  | a :: l => insertDesc a (sortDesc l)

/-- video_processor.py lines 206-253, VideoProcessor.analyze_content on its
normal (non-raising) path: score every stored segment, filter, sort
descending, fall back to the first relaxed match with placeholder score 0.3
when the filter kept nothing, and return the top 5. The per-segment analyzer
call is the analyze parameter. -/
def analyze_content (analyze : String → AnalysisResult)
    (segments : List TranscriptSegment) : List TranscriptSegment :=
  let scored := segments.map (scoreSegment analyze)
  let sorted := sortDesc (scored.filter isEngaging)
  let result :=
    if sorted = [] then
      match scored.find? relaxedOk with
      | some s => [{ s with overall_score := 3/10 }]
      | none => []
    else sorted
  result.take 5

/-- video_processor.py lines 255-265, the except clause of analyze_content:
when the try body raises, every stored segment with duration in [15, 60] is
given default score 0.5 and the first 3 are returned. -/
def analyze_content_exc (segments : List TranscriptSegment) :
    List TranscriptSegment :=
  (segments.filterMap fun s =>
    if 15 ≤ segmentDuration s ∧ segmentDuration s ≤ 60 then
      some { s with overall_score := 5/10 }
    else none).take 3

/-- models.py line 6: the job status enum. -/
inductive ProcessingStatus where
  | pending | downloading | transcribing | analyzing | editing | uploading
  | completed | failed
deriving DecidableEq

/-- models.py line 23, the video_jobs row: the fields process_video reads or
writes through update_job_status. -/
structure VideoJob where
  status : ProcessingStatus := .pending
  progress : ℕ := 0
  error_message : Option String := none
deriving DecidableEq

/-- video_processor.py lines 65-71, VideoProcessor.update_job_status: status
and progress are always written; the error column is written only when the
message argument is truthy, that is, present and non-empty. -/
def update_job_status (job : VideoJob) (status : ProcessingStatus)
    (progress : ℕ) (err : Option String) : VideoJob :=
  { job with
    status := status
    progress := progress
    error_message :=
      match err with
      | some m => if m = "" then job.error_message else some m
      | none => job.error_message }

/-- The outcome of each external stage body of process_video: ok, or the
message of the exception it raised. -/
structure StageOutcomes where
  download : Except String Unit
  transcribe : Except String Unit
  analyze : Except String Unit
  edit : Except String Unit

/-- The stage checkpoints of video_processor.py lines 41-54 in order, each
with its progress milestone and its stage body outcome. -/
def stageList (o : StageOutcomes) : List (ProcessingStatus × ℕ × Except String Unit) :=
  [(.downloading, 10, o.download), (.transcribing, 30, o.transcribe),
   (.analyzing, 50, o.analyze), (.editing, 70, o.edit)]

/-- The committed job states of one process_video run, in commit order: each
stage checkpoint is committed before its body runs; the first raising body
commits the failure state and ends the run (lines 61-63); when every body
returns, the completed state is committed (line 57). -/
def runStagesAux (job : VideoJob) :
    List (ProcessingStatus × ℕ × Except String Unit) → List VideoJob
  | [] => [update_job_status job .completed 100 none]
  | (st, p, out) :: rest =>
    let j := update_job_status job st p none
    match out with
    | .error e => [j, update_job_status j .failed 0 (some e)]
    | .ok _ => j :: runStagesAux j rest

/-- video_processor.py lines 29-63, VideoProcessor.process_video: the trace
of job states committed by one run, given the outcome of each stage body. -/
def process_video (job : VideoJob) (o : StageOutcomes) : List VideoJob :=
  runStagesAux job (stageList o)

/-- True when the error column is a non-empty text. -/
def errorNonempty (j : VideoJob) : Bool :=
  match j.error_message with
  | some m => decide (m ≠ "")
  | none => false

/-- The per-state part of the C5 invariant: a failed state carries a
non-empty error and progress 0; a state neither failed nor completed never
shows progress 100. -/
def jobStateOk (j : VideoJob) : Bool :=
  (decide (j.status ≠ ProcessingStatus.failed) ||
    (errorNonempty j && decide (j.progress = 0))) &&
  (decide (j.status = ProcessingStatus.failed) ||
    decide (j.status = ProcessingStatus.completed) || decide (j.progress ≠ 100))

/-- The whole-trace part of the C5 invariant: every committed state is sound
and a failed state can only be the last commit of the run — after a failure
no further stage is performed. -/
def traceOk (trace : List VideoJob) : Bool :=
  trace.all jobStateOk &&
    trace.dropLast.all (fun j => decide (j.status ≠ ProcessingStatus.failed))

/-- Every raising stage body carries a non-empty exception message. -/
def msgsNonempty (o : StageOutcomes) : Bool :=
  [o.download, o.transcribe, o.analyze, o.edit].all fun out =>
    match out with
    | .error m => decide (m ≠ "")
    | .ok _ => true

/-- models.py line 16: the upload status enum. -/
inductive UploadStatus where
  | notUploaded | pending | uploading | uploaded | failed
deriving DecidableEq

/-- models.py line 76, the video_shorts row: generation fields written by
generate_shorts and upload fields written by upload_short. -/
structure VideoShort where
  title : String := ""
  description : String := ""
  tags : List String := []
  short_start : ℚ := 0
  short_end : ℚ := 0
  short_duration : ℚ := 0
  output_path : String := ""
  engagement_score : ℚ := 0
  viral_potential : ℚ := 0
  clip_reason : String := ""
  upload_status : UploadStatus := .notUploaded
  youtube_video_id : Option String := none
  youtube_url : Option String := none
  upload_error : Option String := none
  uploaded_at : Option ℕ := none
  file_size : ℕ := 0
deriving DecidableEq

/-- video_processor.py lines 267-313, VideoProcessor.generate_shorts: one
clip attempt per selected segment in order, numbered from the given index.
The attempt (metadata generation, transcode, record construction) is the
makeClip parameter; a raising attempt is logged and skipped by the inner
except clause and the loop continues with the next segment. -/
def generate_shorts (makeClip : ℕ → TranscriptSegment → Except String VideoShort) :
    ℕ → List TranscriptSegment → List VideoShort
  | _, [] => []
  | i, s :: rest =>
    match makeClip i s with
    | .ok short => short :: generate_shorts makeClip (i + 1) rest
    | .error _ => generate_shorts makeClip (i + 1) rest

/-- The editing stage as process_video sees it: the per-clip except clause
keeps clip failures inside the loop, so the stage body returns the produced
records and only external commit failures (absent from this model) could
raise out of it. -/
def editingStage (makeClip : ℕ → TranscriptSegment → Except String VideoShort)
    (segments : List TranscriptSegment) : Except String (List VideoShort) :=
  Except.ok (generate_shorts makeClip 0 segments)

/-- The outcome of one YouTube upload attempt as upload_short observes it:
the credential lookup came back empty, the transport raised, or a response
arrived whose id key is present or absent. -/
inductive UploadOutcome where
  | noCredentials
  | uploadRaises (msg : String)
  | response (vid : Option String)
deriving DecidableEq

/-- youtube_uploader.py lines 18-78, YouTubeUploader.upload_short: the short
row after the call completes, given the attempt outcome and the current
time. Every path first writes uploading; the success path writes the video
id, the url and the timestamp with status uploaded; each raising path is
caught by the except clause, which writes status failed and the message; the
finally clause commits whichever state was reached. -/
def upload_short (short : VideoShort) (outcome : UploadOutcome) (now : ℕ) :
    VideoShort :=
  let s := { short with upload_status := UploadStatus.uploading }
  match outcome with
  | .noCredentials =>
    { s with upload_status := .failed,
             upload_error := some "No valid YouTube credentials found" }
  | .uploadRaises m =>
    { s with upload_status := .failed, upload_error := some m }
  | .response none =>
    { s with upload_status := .failed,
             upload_error := some "No video ID returned from YouTube" }
  | .response (some vid) =>
    { s with
      youtube_video_id := some vid
      youtube_url := some ("https://youtube.com/shorts/" ++ vid)
      upload_status := .uploaded
      uploaded_at := some now }

/-- The C9 consistency predicate on a short row: uploaded rows carry the
external id, the url and the timestamp; failed rows carry the error text. -/
def uploadConsistent (s : VideoShort) : Bool :=
  match s.upload_status with
  | .uploaded => s.youtube_video_id.isSome && s.youtube_url.isSome && s.uploaded_at.isSome
  | .failed => s.upload_error.isSome
  | _ => true

/-- Python ",".join(tags). -/
def joinComma : List String → String
  | [] => ""
  | [t] => t
  | t :: rest => t ++ "," ++ joinComma rest

/-- youtube_uploader.py lines 140-147, the truncation loop of
prepare_upload_metadata: each tag is charged its length plus one comma —
the first tag included — against the 500 budget, and the loop breaks at the
first tag that does not fit. -/
def truncTagsAux (cum : ℕ) : List String → List String
  | [] => []
  | t :: rest =>
    if cum + t.length + 1 ≤ 500 then t :: truncTagsAux (cum + t.length + 1) rest
    else []

/-- youtube_uploader.py lines 136-148: the tag list actually uploaded — the
untouched list when its comma-joined length is within 500 characters, the
truncation loop's prefix otherwise. -/
def truncateTags (tags : List String) : List String :=
  if (joinComma tags).length > 500 then truncTagsAux 0 tags else tags

/-- The per-tag budget the truncation loop charges: length plus one comma. -/
def costSum (p : List String) : ℕ := (p.map fun t => t.length + 1).sum

/-- Modelled from the spec: the longest prefix of the tag list that fits
within the 500-character joined limit, built greedily — the first tag costs
its length, every later tag its length plus the comma before it. Stated for
comparison with truncateTags, which the source derives the uploaded list
from. -/
def specLongestFit : ℕ → Bool → List String → List String
  | _, _, [] => []
  | cum, isHead, t :: rest =>
    let c := if isHead then t.length else t.length + 1
    if cum + c ≤ 500 then t :: specLongestFit (cum + c) false rest else []

/-! ## Helper lemmas -/

@[simp]
theorem scoreSegment_start_time (analyze : String → AnalysisResult) (s : TranscriptSegment) :
    (scoreSegment analyze s).start_time = s.start_time := rfl

@[simp]
theorem scoreSegment_end_time (analyze : String → AnalysisResult) (s : TranscriptSegment) :
    (scoreSegment analyze s).end_time = s.end_time := rfl

@[simp]
theorem scoreSegment_text (analyze : String → AnalysisResult) (s : TranscriptSegment) :
    (scoreSegment analyze s).text = s.text := rfl

theorem mem_insertDesc (a x : TranscriptSegment) (l : List TranscriptSegment) :
    x ∈ insertDesc a l ↔ x = a ∨ x ∈ l := by
  induction l with
  | nil => simp [insertDesc]
  | cons b t ih =>
    by_cases h : b.overall_score ≤ a.overall_score
    · simp [insertDesc, h]
    · simp only [insertDesc, if_neg h, List.mem_cons, ih]
      tauto

theorem length_insertDesc (a : TranscriptSegment) (l : List TranscriptSegment) :
    (insertDesc a l).length = l.length + 1 := by
  induction l with
  | nil => simp [insertDesc]
  | cons b t ih =>
    by_cases h : b.overall_score ≤ a.overall_score <;>
      simp [insertDesc, h, ih]

theorem pairwise_insertDesc (a : TranscriptSegment) (l : List TranscriptSegment)
    (hl : l.Pairwise fun x y => y.overall_score ≤ x.overall_score) :
    (insertDesc a l).Pairwise fun x y => y.overall_score ≤ x.overall_score := by
  induction l with
  | nil => simp [insertDesc]
  | cons b t ih =>
    rcases List.pairwise_cons.mp hl with ⟨hb, ht⟩
    by_cases h : b.overall_score ≤ a.overall_score
    · rw [insertDesc, if_pos h]
      refine List.pairwise_cons.mpr ⟨?_, hl⟩
      intro y hy
      rcases List.mem_cons.mp hy with rfl | hyt
      · exact h
      · exact le_trans (hb y hyt) h
    · rw [insertDesc, if_neg h]
      refine List.pairwise_cons.mpr ⟨?_, ih ht⟩
      intro y hy
      rcases (mem_insertDesc a y t).mp hy with rfl | hyt
      · exact le_of_lt (lt_of_not_le h)
      · exact hb y hyt

theorem mem_sortDesc (x : TranscriptSegment) (l : List TranscriptSegment) :
    x ∈ sortDesc l ↔ x ∈ l := by
  induction l with
  | nil => simp [sortDesc]
  | cons a t ih => simp [sortDesc, mem_insertDesc, ih]

theorem length_sortDesc (l : List TranscriptSegment) :
    (sortDesc l).length = l.length := by
  induction l with
  | nil => rfl
  | cons a t ih => simp [sortDesc, length_insertDesc, ih]

theorem pairwise_sortDesc (l : List TranscriptSegment) :
    (sortDesc l).Pairwise fun x y => y.overall_score ≤ x.overall_score := by
  induction l with
  | nil => simp [sortDesc]
  | cons a t ih => exact pairwise_insertDesc a (sortDesc t) ih

theorem clamp01_nonneg (x : ℚ) : 0 ≤ clamp01 x := le_max_left 0 (min 1 x)

theorem clamp01_le_one (x : ℚ) : clamp01 x ≤ 1 :=
  max_le zero_le_one (min_le_left 1 x)

theorem takeChars_length_le (n : ℕ) (s : String) : (takeChars n s).length ≤ n := by
  show (s.data.take n).length ≤ n
  exact List.length_take_le n s.data

/-! ## Concrete inputs used by scenario, witness and counterexample theorems -/

/-- An analyzer whose oracle is unreachable on every call: every segment is
scored by the deterministic fallback heuristic. -/
def wAnalyze : String → AnalysisResult := fun t => analyze_segment none t

/-- A 25-second four-word segment with no scoring keywords: the fallback
heuristic scores it 0.31 overall, below the 0.4 candidate threshold, and its
word count 4 is below the primary filter's 5, so only the relaxed rescan
keeps it. -/
def segC6 : TranscriptSegment :=
  { start_time := 0, end_time := 25, text := "one two three four" }

/-- A 12-second three-word segment: it qualifies for the relaxed rescan
(duration in [10, 60], word count 3) but not for the exception-path filter
(duration below 15). -/
def cSeg : TranscriptSegment := { start_time := 0, end_time := 12, text := "a b c" }

/-- Scenario segment 1 of C4: 20 seconds, 8 words. -/
def scSeg1 : TranscriptSegment :=
  { start_time := 0, end_time := 20, text := "a a a a a a a a" }

/-- Scenario segment 2 of C4: 40 seconds, 6 words. -/
def scSeg2 : TranscriptSegment :=
  { start_time := 0, end_time := 40, text := "b b b b b b" }

/-- Scenario segment 3 of C4: 45 seconds, 10 words. -/
def scSeg3 : TranscriptSegment :=
  { start_time := 0, end_time := 45, text := "c c c c c c c c c c" }

/-- An analyzer result with all four component scores equal, so the derived
overall score equals the common component value. -/
def constScore (q : ℚ) : AnalysisResult := ⟨q, q, q, q, [], [], ""⟩

/-- The C4 scenario analyzer: overall scores 0.6, 0.2 and 0.5 for the three
scenario segments. -/
def scenarioAnalyze : String → AnalysisResult := fun t =>
  if t = scSeg1.text then constScore (3/5)
  else if t = scSeg2.text then constScore (1/5)
  else constScore (1/2)

/-- A fresh job as submission creates it: pending, progress 0, no error. -/
def cJob : VideoJob := {}

/-- A run whose download stage raises an exception with an empty message. -/
def cOutcomes : StageOutcomes :=
  ⟨Except.error "", Except.ok (), Except.ok (), Except.ok ()⟩

/-- A run whose download stage raises with a non-empty message. -/
def wOutcomes : StageOutcomes :=
  ⟨Except.error "boom", Except.ok (), Except.ok (), Except.ok ()⟩

/-- The failed job state the empty-message run commits last. -/
def jFail : VideoJob :=
  { status := ProcessingStatus.failed, progress := 0, error_message := none }

/-- A single tag of 500 characters: its comma-joined length, 500, fits the
limit, but the truncation loop charges it 501. -/
def bigTag : String := String.mk (List.replicate 500 'a')

/-- 51 ten-character tags: comma-joined length 560. -/
def wTags : List String := List.replicate 51 (String.mk (List.replicate 10 'x'))

/-! ## C1 -/

/-- C1: the scoring step of the analysis stage stores overall_score as
exactly 0.3 times engagement plus 0.2 times emotion plus 0.3 times viral
potential plus 0.2 times quotability of the component scores it stores with
it, and when each of the four components lies in [0, 1], the stored
overall_score lies in [0, 1]. -/
theorem C1_overall_score_weighted (analyze : String → AnalysisResult)
    (s : TranscriptSegment)
    (h1 : 0 ≤ (analyze s.text).engagement_score)
    (h2 : (analyze s.text).engagement_score ≤ 1)
    (h3 : 0 ≤ (analyze s.text).emotion_score)
    (h4 : (analyze s.text).emotion_score ≤ 1)
    (h5 : 0 ≤ (analyze s.text).viral_potential)
    (h6 : (analyze s.text).viral_potential ≤ 1)
    (h7 : 0 ≤ (analyze s.text).quotability)
    (h8 : (analyze s.text).quotability ≤ 1) :
    (scoreSegment analyze s).overall_score =
        (3/10) * (scoreSegment analyze s).engagement_score +
          (2/10) * (scoreSegment analyze s).emotion_score +
          (3/10) * (scoreSegment analyze s).viral_potential +
          (2/10) * (scoreSegment analyze s).quotability ∧
      0 ≤ (scoreSegment analyze s).overall_score ∧
      (scoreSegment analyze s).overall_score ≤ 1 := by
  refine ⟨by simp [scoreSegment]; ring, ?_, ?_⟩ <;>
    · simp only [scoreSegment]
      nlinarith

/-- Witness for C1 at a concrete fallback-scored segment. -/
theorem C1_witness :
    (scoreSegment wAnalyze segC6).overall_score =
        (3/10) * (scoreSegment wAnalyze segC6).engagement_score +
          (2/10) * (scoreSegment wAnalyze segC6).emotion_score +
          (3/10) * (scoreSegment wAnalyze segC6).viral_potential +
          (2/10) * (scoreSegment wAnalyze segC6).quotability ∧
      0 ≤ (scoreSegment wAnalyze segC6).overall_score ∧
      (scoreSegment wAnalyze segC6).overall_score ≤ 1 :=
  C1_overall_score_weighted wAnalyze segC6
    (by with_unfolding_all decide) (by with_unfolding_all decide)
    (by with_unfolding_all decide) (by with_unfolding_all decide)
    (by with_unfolding_all decide) (by with_unfolding_all decide)
    (by with_unfolding_all decide) (by with_unfolding_all decide)

/-! ## C3 -/

/-- C3: for every input text the fallback scorer returns — it is a total
function — engagement max(0.4, min(1, 0.2 times the matched engagement
keywords)), emotion max(0.3, min(1, 0.2 times the matched emotion
keywords)), viral max(0.3, min(1, 0.3 times the matched viral keywords)),
matching each keyword as a substring of the lowercased text, quotability
min(1, wordCount divided by 20); in particular engagement is at least 0.4
and emotion and viral potential at least 0.3. -/
theorem C3_fallback_floors (text : String) :
    (fallback_analysis text).engagement_score =
        max (4/10) (min 1 ((2/10) * (countMatches engagement_keywords (pyLower text) : ℚ))) ∧
      (fallback_analysis text).emotion_score =
        max (3/10) (min 1 ((2/10) * (countMatches emotion_keywords (pyLower text) : ℚ))) ∧
      (fallback_analysis text).viral_potential =
        max (3/10) (min 1 ((3/10) * (countMatches viral_keywords (pyLower text) : ℚ))) ∧
      (fallback_analysis text).quotability = min 1 ((wordCount text : ℚ) / 20) ∧
      (4/10 : ℚ) ≤ (fallback_analysis text).engagement_score ∧
      (3/10 : ℚ) ≤ (fallback_analysis text).emotion_score ∧
      (3/10 : ℚ) ≤ (fallback_analysis text).viral_potential := by
  refine ⟨?_, ?_, ?_, rfl, ?_, ?_, ?_⟩
  · simp [fallback_analysis, mul_comm]
  · simp [fallback_analysis, mul_comm]
  · simp [fallback_analysis, mul_comm]
  · exact le_max_left _ _
  · exact le_max_left _ _
  · exact le_max_left _ _

/-! ## C9 -/

/-- C9: after every completed upload_short call the short row's upload
fields are consistent with its upload state — status uploaded implies the
external video id, the url and the upload timestamp are present, and
status failed implies the upload error text is present. -/
theorem C9_upload_consistency (short : VideoShort) (outcome : UploadOutcome) (now : ℕ) :
    uploadConsistent (upload_short short outcome now) = true := by
  cases outcome with
  | noCredentials => simp [upload_short, uploadConsistent]
  | uploadRaises m => simp [upload_short, uploadConsistent]
  | response vid =>
    cases vid with
    | none => simp [upload_short, uploadConsistent]
    | some v => simp [upload_short, uploadConsistent]

/-! ## C10 -/

/-- C10: with a non-empty parsed oracle response, analyze_segment never
uses the local heuristic — its value does not depend on the text the
heuristic would read — each numeric field missing from the response becomes
the default 0.5, every numeric field of the result is within [0, 1], the
emotions list is cut to 5 entries, the keywords list to 10, and the reason
text to 500 characters. -/
theorem C10_oracle_clamping (raw : RawAnalysis) (t1 t2 : String) :
    analyze_segment (some raw) t1 = analyze_segment (some raw) t2 ∧
      (0 ≤ (analyze_segment (some raw) t1).engagement_score ∧
        (analyze_segment (some raw) t1).engagement_score ≤ 1) ∧
      (0 ≤ (analyze_segment (some raw) t1).emotion_score ∧
        (analyze_segment (some raw) t1).emotion_score ≤ 1) ∧
      (0 ≤ (analyze_segment (some raw) t1).viral_potential ∧
        (analyze_segment (some raw) t1).viral_potential ≤ 1) ∧
      (0 ≤ (analyze_segment (some raw) t1).quotability ∧
        (analyze_segment (some raw) t1).quotability ≤ 1) ∧
      (analyze_segment (some { raw with engagement_score := none }) t1).engagement_score
          = 5/10 ∧
      (analyze_segment (some { raw with emotion_score := none }) t1).emotion_score = 5/10 ∧
      (analyze_segment (some { raw with viral_potential := none }) t1).viral_potential
          = 5/10 ∧
      (analyze_segment (some { raw with quotability := none }) t1).quotability = 5/10 ∧
      (analyze_segment (some raw) t1).emotions.length ≤ 5 ∧
      (analyze_segment (some raw) t1).keywords.length ≤ 10 ∧
      (analyze_segment (some raw) t1).reason.length ≤ 500 := by
  refine ⟨rfl, ⟨clamp01_nonneg _, clamp01_le_one _⟩, ⟨clamp01_nonneg _, clamp01_le_one _⟩,
    ⟨clamp01_nonneg _, clamp01_le_one _⟩, ⟨clamp01_nonneg _, clamp01_le_one _⟩,
    ?_, ?_, ?_, ?_, ?_, ?_, ?_⟩
  · simp [analyze_segment, clamp01]
    norm_num
  · simp [analyze_segment, clamp01]
    norm_num
  · simp [analyze_segment, clamp01]
    norm_num
  · simp [analyze_segment, clamp01]
    norm_num
  · simp [analyze_segment]
  · simp [analyze_segment]
  · exact takeChars_length_le 500 _

/-! ## C7 -/

theorem generate_shorts_enumFrom (makeClip : ℕ → TranscriptSegment → Except String VideoShort) :
    ∀ (segments : List TranscriptSegment) (i : ℕ),
      generate_shorts makeClip i segments =
        ((segments.enumFrom i).filterMap fun p => (makeClip p.1 p.2).toOption) := by
  intro segments
  induction segments with
  | nil => intro i; rfl
  | cons s rest ih =>
    intro i
    cases h : makeClip i s with
    | ok short => simp [generate_shorts, h, List.enumFrom, ih (i + 1), Except.toOption]
    | error e => simp [generate_shorts, h, List.enumFrom, ih (i + 1), Except.toOption]

/-- C7: during the editing stage each selected segment's clip attempt is
independent — the produced records are exactly the successful attempts of
the enumerated segment list, in order, so a failing attempt skips only its
own clip while every other segment is still attempted with its own index
and its successful record kept — and the stage body returns normally to the
pipeline, so per-clip failures alone never put the job into the failed
state. -/
theorem C7_per_clip_isolation :
    (∀ (makeClip : ℕ → TranscriptSegment → Except String VideoShort)
        (segments : List TranscriptSegment),
      generate_shorts makeClip 0 segments =
        (segments.enum.filterMap fun p => (makeClip p.1 p.2).toOption)) ∧
    (∀ (makeClip : ℕ → TranscriptSegment → Except String VideoShort)
        (segments : List TranscriptSegment) (p : ℕ × TranscriptSegment)
        (short : VideoShort),
      p ∈ segments.enum → makeClip p.1 p.2 = Except.ok short →
        short ∈ generate_shorts makeClip 0 segments) ∧
    (∀ (makeClip : ℕ → TranscriptSegment → Except String VideoShort)
        (segments : List TranscriptSegment),
      editingStage makeClip segments = Except.ok (generate_shorts makeClip 0 segments)) := by
  refine ⟨?_, ?_, fun _ _ => rfl⟩
  · intro makeClip segments
    exact generate_shorts_enumFrom makeClip segments 0
  · intro makeClip segments p short hp hok
    rw [generate_shorts_enumFrom makeClip segments 0]
    exact List.mem_filterMap.mpr ⟨p, hp, by simp [hok, Except.toOption]⟩

/-! ## C5 -/

/-- C5 counterexample: a stage body can raise an exception whose message is
the empty string — Python str(e) of a bare exception — and then
update_job_status's truthiness test skips the error column: the run ends
with the job failed and its error text empty, which the claim as stated
rules out for every raising outcome. -/
theorem C5_counterexample :
    (process_video cJob cOutcomes).getLast? = some jFail ∧
      jFail.status = ProcessingStatus.failed ∧ jFail.error_message = none := by
  refine ⟨?_, rfl, rfl⟩
  with_unfolding_all decide

/-- C5 amended: provided every raising stage body carries a non-empty
failure message — the status updater drops an empty one — no committed
state of a run has status failed with an empty error or progress other
than 0, no committed state outside failed and completed has progress 100,
and a failure is committed as the single last update of the run: no state
after it, so no further stage is performed. -/
theorem C5_amended_invariants (job : VideoJob) (o : StageOutcomes)
    (h : msgsNonempty o = true) :
    traceOk (process_video job o) = true := by
  obtain ⟨o1, o2, o3, o4⟩ := o
  simp only [msgsNonempty, List.all_cons, List.all_nil, Bool.and_eq_true,
    Bool.and_true] at h
  obtain ⟨h1, h2, h3, h4⟩ := h
  cases o1 with
  | error e =>
    simp only [decide_eq_true_eq] at h1
    simp [process_video, stageList, runStagesAux, traceOk, jobStateOk,
      update_job_status, errorNonempty, h1]
  | ok _ =>
    cases o2 with
    | error e =>
      simp only [decide_eq_true_eq] at h2
      simp [process_video, stageList, runStagesAux, traceOk, jobStateOk,
        update_job_status, errorNonempty, h2]
    | ok _ =>
      cases o3 with
      | error e =>
        simp only [decide_eq_true_eq] at h3
        simp [process_video, stageList, runStagesAux, traceOk, jobStateOk,
          update_job_status, errorNonempty, h3]
      | ok _ =>
        cases o4 with
        | error e =>
          simp only [decide_eq_true_eq] at h4
          simp [process_video, stageList, runStagesAux, traceOk, jobStateOk,
            update_job_status, errorNonempty, h4]
        | ok _ =>
          simp [process_video, stageList, runStagesAux, traceOk, jobStateOk,
            update_job_status, errorNonempty]

/-- Witness for C5 at a concrete run whose download stage fails with a
non-empty message. -/
theorem C5_witness : traceOk (process_video cJob wOutcomes) = true :=
  C5_amended_invariants cJob wOutcomes (by with_unfolding_all decide)

/-! ## C2 -/

/-- C2 counterexample: a 12-second, 3-word segment qualifies under the
claim's hypothesis (duration in [10, 60], word count at least 3), yet the
exception-path selector — which keeps only durations in [15, 60] — returns
the empty list, so the non-empty guarantee does not hold on every path
through selection. -/
theorem C2_counterexample :
    (10 ≤ segmentDuration cSeg ∧ segmentDuration cSeg ≤ 60 ∧
        3 ≤ wordCount cSeg.text) ∧
      analyze_content_exc [cSeg] = [] := by
  with_unfolding_all decide

/-- C2 amended: on the primary (non-raising) selection path the selector
returns a non-empty list whenever some stored segment has duration in
[10, 60] and word count at least 3; on the path taken when content analysis
raises, the selector is guaranteed non-empty only when some stored segment
has duration in [15, 60]. -/
theorem C2_amended_nonempty :
    (∀ (analyze : String → AnalysisResult) (segments : List TranscriptSegment),
      (∃ s ∈ segments, 10 ≤ segmentDuration s ∧ segmentDuration s ≤ 60 ∧
          3 ≤ wordCount s.text) →
        analyze_content analyze segments ≠ []) ∧
    (∀ segments : List TranscriptSegment,
      (∃ s ∈ segments, 15 ≤ segmentDuration s ∧ segmentDuration s ≤ 60) →
        analyze_content_exc segments ≠ []) := by
  constructor
  · rintro analyze segments ⟨s, hmem, hd1, hd2, hw⟩
    have hs' : scoreSegment analyze s ∈ segments.map (scoreSegment analyze) :=
      List.mem_map_of_mem _ hmem
    have hrel : relaxedOk (scoreSegment analyze s) = true := by
      simp only [segmentDuration] at hd1 hd2
      simp [relaxedOk, segmentDuration, hd1, hd2, hw]
    by_cases hnil :
        sortDesc ((segments.map (scoreSegment analyze)).filter isEngaging) = []
    · have hfind : ((segments.map (scoreSegment analyze)).find? relaxedOk).isSome :=
        List.find?_isSome.mpr ⟨_, hs', hrel⟩
      obtain ⟨x, hx⟩ := Option.isSome_iff_exists.mp hfind
      simp [analyze_content, hnil, hx]
    · simp only [analyze_content, if_neg hnil]
      intro hc
      rcases List.take_eq_nil_iff.mp hc with h5 | h0
      · exact absurd h5 (by decide)
      · exact hnil h0
  · rintro segments ⟨s, hmem, hd1, hd2⟩
    have hx : { s with overall_score := (5/10 : ℚ) } ∈
        segments.filterMap fun t =>
          if 15 ≤ segmentDuration t ∧ segmentDuration t ≤ 60 then
            some { t with overall_score := (5/10 : ℚ) }
          else none :=
      List.mem_filterMap.mpr ⟨s, hmem, by rw [if_pos ⟨hd1, hd2⟩]⟩
    intro hc
    rcases List.take_eq_nil_iff.mp hc with h3 | h0
    · exact absurd h3 (by decide)
    · rw [h0] at hx
      exact absurd hx (List.not_mem_nil _)

/-- Witness for C2 amended: both guarantees at concrete one-segment jobs. -/
theorem C2_witness :
    analyze_content wAnalyze [cSeg] ≠ [] ∧ analyze_content_exc [segC6] ≠ [] :=
  ⟨C2_amended_nonempty.1 wAnalyze [cSeg]
      ⟨cSeg, by with_unfolding_all decide⟩,
    C2_amended_nonempty.2 [segC6]
      ⟨segC6, by with_unfolding_all decide⟩⟩

/-! ## C4 -/

/-- C4: on the primary selection path a scored segment is a candidate
exactly when its overall score is above 0.4, its duration lies in [10, 60]
and its text has at least 5 words; the returned list is descending in
overall score and has at most 5 entries; and on the three-segment scenario
with overall scores 0.6, 0.2, 0.5, durations 20, 40, 45 and word counts 8,
6, 10, the selector returns exactly the segments scoring 0.6 and 0.5 in
that order. -/
theorem C4_selection :
    (∀ (analyze : String → AnalysisResult) (segments : List TranscriptSegment)
        (s : TranscriptSegment),
      s ∈ (segments.map (scoreSegment analyze)).filter isEngaging ↔
        s ∈ segments.map (scoreSegment analyze) ∧
          (4/10 < s.overall_score ∧ 10 ≤ segmentDuration s ∧
            segmentDuration s ≤ 60 ∧ 5 ≤ wordCount s.text)) ∧
    (∀ (analyze : String → AnalysisResult) (segments : List TranscriptSegment),
      (analyze_content analyze segments).Pairwise
        fun a b => b.overall_score ≤ a.overall_score) ∧
    (∀ (analyze : String → AnalysisResult) (segments : List TranscriptSegment),
      (analyze_content analyze segments).length ≤ 5) ∧
    (analyze_content scenarioAnalyze [scSeg1, scSeg2, scSeg3] =
        [scoreSegment scenarioAnalyze scSeg1, scoreSegment scenarioAnalyze scSeg3] ∧
      (scoreSegment scenarioAnalyze scSeg1).overall_score = 3/5 ∧
      (scoreSegment scenarioAnalyze scSeg3).overall_score = 1/2) := by
  refine ⟨?_, ?_, ?_, by with_unfolding_all decide⟩
  · intro analyze segments s
    rw [List.mem_filter]
    simp [isEngaging, and_assoc]
  · intro analyze segments
    by_cases hnil :
        sortDesc ((segments.map (scoreSegment analyze)).filter isEngaging) = []
    · cases hfind : (segments.map (scoreSegment analyze)).find? relaxedOk with
      | none => simp [analyze_content, hnil, hfind]
      | some x => simp [analyze_content, hnil, hfind]
    · simp only [analyze_content, if_neg hnil]
      exact (pairwise_sortDesc _).sublist (List.take_sublist _ _)
  · intro analyze segments
    by_cases hnil :
        sortDesc ((segments.map (scoreSegment analyze)).filter isEngaging) = []
    · cases hfind : (segments.map (scoreSegment analyze)).find? relaxedOk with
      | none => simp [analyze_content, hnil, hfind]
      | some x => simp [analyze_content, hnil, hfind]
    · simp only [analyze_content, if_neg hnil]
      exact List.length_take_le 5 _

/-! ## C6 -/

/-- C6 counterexample: a run of the analysis stage in which the relaxed
fallback overwrites a segment's overall_score with the fixed placeholder
0.3 while the weighted combination of its stored component scores is 0.31 —
the stage does assign overall_score directly, so it is not always the
weighted combination of the four raw scores. -/
theorem C6_counterexample :
    (analyze_content wAnalyze [segC6]).map (fun r => r.overall_score) = [3/10] ∧
      (analyze_content wAnalyze [segC6]).map (fun r =>
          r.engagement_score * (3/10) + r.emotion_score * (2/10) +
            r.viral_potential * (3/10) + r.quotability * (2/10)) = [31/100] ∧
      (3/10 : ℚ) ≠ 31/100 := by
  with_unfolding_all decide

/-- C6 amended: every segment the analysis stage returns carries either the
weighted combination of its stored raw scores — the value the scoring step
derives — or one of the two fixed placeholder scores the selection
fallbacks assign directly: 0.3 on the relaxed rescan, 0.5 on the
exception path. -/
theorem C6_amended_overall :
    (∀ (analyze : String → AnalysisResult) (segments : List TranscriptSegment),
      ∀ r ∈ analyze_content analyze segments,
        r.overall_score =
            r.engagement_score * (3/10) + r.emotion_score * (2/10) +
              r.viral_potential * (3/10) + r.quotability * (2/10) ∨
          r.overall_score = 3/10) ∧
    (∀ segments : List TranscriptSegment,
      ∀ r ∈ analyze_content_exc segments, r.overall_score = 5/10) := by
  constructor
  · intro analyze segments r hr
    by_cases hnil :
        sortDesc ((segments.map (scoreSegment analyze)).filter isEngaging) = []
    · cases hfind : (segments.map (scoreSegment analyze)).find? relaxedOk with
      | none => simp [analyze_content, hnil, hfind] at hr
      | some x =>
        simp [analyze_content, hnil, hfind] at hr
        subst hr
        exact Or.inr rfl
    · simp only [analyze_content, if_neg hnil] at hr
      have hr' := List.take_subset 5 _ hr
      rcases List.mem_map.mp ((List.mem_filter.mp ((mem_sortDesc r _).mp hr')).1)
        with ⟨s, _, rfl⟩
      exact Or.inl rfl
  · intro segments r hr
    have hr' := List.take_subset 3 _ hr
    rcases List.mem_filterMap.mp hr' with ⟨s, _, hs⟩
    by_cases hdur : 15 ≤ segmentDuration s ∧ segmentDuration s ≤ 60
    · rw [if_pos hdur] at hs
      cases hs
      rfl
    · rw [if_neg hdur] at hs
      cases hs

/-! ## C8 -/

theorem truncTagsAux_take (tags : List String) : ∀ cum : ℕ,
    ∃ k, k ≤ tags.length ∧ truncTagsAux cum tags = tags.take k ∧
      (∀ j, j ≤ tags.length → cum + costSum (tags.take j) ≤ 500 → j ≤ k) ∧
      (cum + costSum (tags.take k) ≤ 500 ∨ k = 0) := by
  induction tags with
  | nil =>
    intro cum
    exact ⟨0, le_refl 0, rfl, fun j hj _ => hj, Or.inr rfl⟩
  | cons t rest ih =>
    intro cum
    by_cases h : cum + t.length + 1 ≤ 500
    · obtain ⟨k, hk1, hk2, hk3, hk4⟩ := ih (cum + t.length + 1)
      refine ⟨k + 1, by simpa using hk1, ?_, ?_, ?_⟩
      · rw [truncTagsAux, if_pos h, hk2, List.take_succ_cons]
      · intro j hj hcost
        cases j with
        | zero => exact Nat.zero_le _
        | succ j' =>
          have hj' : j' ≤ rest.length := by simpa using hj
          have hstep : cum + t.length + 1 + costSum (rest.take j') ≤ 500 := by
            simp only [costSum, List.take_succ_cons, List.map_cons,
              List.sum_cons] at hcost ⊢
            omega
          exact Nat.succ_le_succ (hk3 j' hj' hstep)
      · left
        rcases hk4 with hfit | hk0
        · simp only [List.take_succ_cons, costSum, List.map_cons, List.sum_cons]
          simp only [costSum] at hfit
          omega
        · subst hk0
          simp only [List.take_succ_cons, List.take_zero, costSum, List.map_cons,
            List.map_nil, List.sum_cons, List.sum_nil]
          omega
    · refine ⟨0, Nat.zero_le _, by rw [truncTagsAux, if_neg h]; rfl, ?_, Or.inr rfl⟩
      intro j hj hcost
      cases j with
      | zero => exact le_refl 0
      | succ j' =>
        exfalso
        simp only [List.take_succ_cons, costSum, List.map_cons, List.sum_cons] at hcost
        omega

theorem costSum_joinComma : ∀ (rest : List String) (t : String),
    costSum (t :: rest) = (joinComma (t :: rest)).length + 1 := by
  intro rest
  induction rest with
  | nil =>
    intro t
    simp [costSum, joinComma]
  | cons r rs ih =>
    intro t
    have hj : joinComma (t :: r :: rs) = t ++ "," ++ joinComma (r :: rs) := rfl
    have hr := ih r
    simp only [costSum, List.map_cons, List.sum_cons] at hr ⊢
    rw [hj]
    simp only [String.length_append]
    have hcomma : (",").length = 1 := rfl
    omega

set_option maxRecDepth 10000 in
/-- C8 counterexample: a 500-character tag followed by a one-character tag.
The comma-joined list is 502 characters, so the truncation loop runs; it
charges the first tag 501 (length plus a comma even for the first tag) and
drops it, returning the empty list — while the longest prefix that fits the
500-character joined limit is the first tag alone. -/
theorem C8_counterexample :
    truncateTags [bigTag, "b"] = [] ∧
      specLongestFit 0 true [bigTag, "b"] = [bigTag] ∧
      (joinComma [bigTag, "b"]).length > 500 ∧
      truncateTags [bigTag, "b"] ≠ specLongestFit 0 true [bigTag, "b"] := by
  with_unfolding_all decide

/-- C8 amended: when the comma-joined tag list exceeds 500 characters, the
uploaded tag list is the longest prefix of the tag list — original order
preserved — whose tags fit when each is charged its length plus one comma,
the first included: cost sum at most 500, equivalently comma-joined length
at most 499 (the final conjunct relates the two measures for non-empty
lists). -/
theorem C8_amended_truncation (tags : List String)
    (h : (joinComma tags).length > 500) :
    (∃ k, truncateTags tags = tags.take k ∧ costSum (tags.take k) ≤ 500 ∧
        ∀ j, j ≤ tags.length → costSum (tags.take j) ≤ 500 → j ≤ k) ∧
      ∀ (t : String) (rest : List String),
        costSum (t :: rest) = (joinComma (t :: rest)).length + 1 := by
  refine ⟨?_, fun t rest => costSum_joinComma rest t⟩
  obtain ⟨k, _, hk2, hk3, hk4⟩ := truncTagsAux_take tags 0
  refine ⟨k, ?_, ?_, fun j hj hc => hk3 j hj (by simpa using hc)⟩
  · rw [truncateTags, if_pos h, hk2]
  · rcases hk4 with hfit | hk0
    · simpa using hfit
    · subst hk0
      simp [costSum]

set_option maxRecDepth 10000 in
/-- Witness for C8 amended at 51 ten-character tags, comma-joined length
560. -/
theorem C8_witness :
    (joinComma wTags).length > 500 ∧
      ((∃ k, truncateTags wTags = wTags.take k ∧ costSum (wTags.take k) ≤ 500 ∧
          ∀ j, j ≤ wTags.length → costSum (wTags.take j) ≤ 500 → j ≤ k) ∧
        ∀ (t : String) (rest : List String),
          costSum (t :: rest) = (joinComma (t :: rest)).length + 1) :=
  ⟨by with_unfolding_all decide,
    C8_amended_truncation wTags (by with_unfolding_all decide)⟩
